import Mathlib

/-!
Verification of the RAG chat backend (`api/app.py`).

The development shallowly embeds the FastAPI handlers `upload_pdf_rag`,
`chat_rag`, `list_pdfs` and the shared registry `pdf_documents`, together
with the `aimakerspace` collaborators they call (`CharacterTextSplitter`,
`VectorDatabase`, prompt construction).  Those collaborators are not part
of the provided source tree, so they are modelled from the specification;
each such definition says so in its doc comment.  Python strings are
embedded as `String` (or `List Char` where character-level reasoning is
needed), Python floats as `ℚ`, exceptions as explicit `Except` values,
and the process-wide dict as an association list in insertion order.
-/

/-- Embedding vectors: a fixed-length numeric vector returned by the
embedding capability (`embed(text) → fixed-length numeric vector`). -/
abbrev Vec := List ℚ

/-- A Python exception value as observed by the handlers: either a
FastAPI `HTTPException(status_code, detail)` or any other exception
carrying its `str(e)` message. -/
inductive Exc where
  | http (status : Nat) (detail : String)
  | err (msg : String)
deriving DecidableEq

/-- `str(e)` for an exception: for `HTTPException` this is its detail
string (starlette passes `detail` to `Exception.__init__`), for any
other exception its message. -/
def excStr : Exc → String
  | .http _ d => d
  | .err m => m

/-- A chat message: role paired with content, as built by
`system_prompt.create_message(...)` / `user_prompt.create_message(...)`
in `chat_rag`. -/
structure Message where
  role : String
  content : String
deriving DecidableEq

/-- A call made to the external provider (embedding or generation),
recorded in program order so that "no provider call is made" claims can
be stated. -/
inductive ProviderCall where
  | embed (text : String)
  | generate (msgs : List Message)
deriving DecidableEq

/-- Whether an `Except` value is an error. -/
def exceptIsErr {ε α : Type} : Except ε α → Bool
  | .error _ => true
  | .ok _ => false

/-! ## The document registry (`pdf_documents`, app.py line 53)

The process-wide `Dict[str, Dict]` is embedded as an association list in
insertion order, with CPython dict semantics: assignment to a fresh key
appends, assignment to an existing key overwrites in place, lookup
returns the value stored under the key. -/

/-- Dict lookup: `d[k]` / `k in d`, first (and only) binding of `k`. -/
def regGet {α : Type} : List (String × α) → String → Option α
  | [], _ => none
  | (k', v) :: rest, k => if k = k' then some v else regGet rest k

/-- Dict assignment `d[k] = v`: overwrite in place if `k` is present,
otherwise append, preserving insertion order (CPython semantics). -/
def dictInsert {α : Type} : List (String × α) → String → α → List (String × α)
  | [], k, v => [(k, v)]
  | (k', v') :: rest, k, v =>
      if k = k' then (k, v) :: rest else (k', v') :: dictInsert rest k v

/-! ## Chunker (`CharacterTextSplitter`) -/

/-- Modelled from the spec: `CharacterTextSplitter` of
`aimakerspace/text_utils.py` is not under the provided source tree; only
its construction `CharacterTextSplitter(chunk_size=1000, chunk_overlap=200)`
appears in `upload_pdf_rag`.  The spec fixes its policy: a sliding
window over characters where chunk `i` starts at
`i·(chunkSize − overlap)`, each chunk takes at most `chunkSize`
characters, the final chunk may be shorter, and empty input yields an
empty sequence. -/
structure CharacterTextSplitter where
  chunk_size : Nat
  chunk_overlap : Nat
deriving DecidableEq

/-- Number of window start positions: the number of naturals `i` with
`i · step < len`, i.e. `⌈len / step⌉` (the length of Python's
`range(0, len, step)`). -/
def numChunks (len step : Nat) : Nat := (len + step - 1) / step

/-- Modelled from the spec: the sliding-window split at character level.
Chunk `i` is the window of `chunk_size` characters starting at
`i · (chunk_size − chunk_overlap)`. -/
def splitChars (size ov : Nat) (t : List Char) : List (List Char) :=
  (List.range (numChunks t.length (size - ov))).map
    fun i => (t.drop (i * (size - ov))).take size

/-- Modelled from the spec: `CharacterTextSplitter.split` on a Python
string, via its character list. -/
def CharacterTextSplitter.split (cfg : CharacterTextSplitter) (s : String) : List String :=
  (splitChars cfg.chunk_size cfg.chunk_overlap s.data).map String.mk

/-- Modelled from the spec: `split_texts` splits each input text and
concatenates the resulting chunk lists in order. -/
def CharacterTextSplitter.split_texts (cfg : CharacterTextSplitter)
    (texts : List String) : List String :=
  (texts.map cfg.split).flatten

/-- Concatenation of a chunk list with the `ov`-character overlapping
prefix removed from every chunk. -/
def restJoin (ov : Nat) (cs : List (List Char)) : List Char :=
  (cs.map (List.drop ov)).flatten

/-- Concatenation of the chunk sequence with overlaps de-duplicated: the
first chunk is kept whole, every later chunk drops the `ov` characters
it shares with its predecessor. -/
def dropOverlaps (ov : Nat) : List (List Char) → List Char
  | [] => []
  | c :: cs => c ++ restJoin ov cs

lemma numChunks_zero (step : Nat) : numChunks 0 step = 0 := by
  rcases step with _ | s
  · rfl
  · show (0 + (s + 1) - 1) / (s + 1) = 0
    rw [Nat.zero_add, Nat.succ_sub_one]
    exact Nat.div_eq_of_lt (Nat.lt_succ_self s)

lemma numChunks_pos_eq (len step : Nat) (hl : 0 < len) (hs : 0 < step) :
    numChunks len step = (len - 1) / step + 1 := by
  unfold numChunks
  have h : len + step - 1 = (len - 1) + step := by omega
  rw [h, Nat.add_div_right _ hs]

lemma numChunks_succ (len step : Nat) (hl : 0 < len) (hs : 0 < step) :
    numChunks len step = numChunks (len - step) step + 1 := by
  rw [numChunks_pos_eq len step hl hs]
  rcases Nat.lt_or_ge (len - 1) step with h | h
  · have h1 : (len - 1) / step = 0 := Nat.div_eq_of_lt h
    have h2 : len - step = 0 := by omega
    rw [h1, h2, numChunks_zero]
  · have h1 : 0 < len - step := by omega
    rw [numChunks_pos_eq (len - step) step h1 hs]
    have h2 : len - 1 = (len - step - 1) + step := by omega
    rw [h2, Nat.add_div_right _ hs]

lemma splitChars_nil (size ov : Nat) : splitChars size ov [] = [] := by
  simp [splitChars, numChunks_zero]

lemma splitChars_cons (size ov : Nat) (h : ov < size) (t : List Char) (ht : t ≠ []) :
    splitChars size ov t = t.take size :: splitChars size ov (t.drop (size - ov)) := by
  have hs : 0 < size - ov := by omega
  have hl : 0 < t.length := List.length_pos.mpr ht
  unfold splitChars
  rw [List.length_drop, numChunks_succ t.length (size - ov) hl hs,
    List.range_succ_eq_map, List.map_cons, List.map_map]
  congr 1
  · simp
  · have hfun : ((fun i => (t.drop (i * (size - ov))).take size) ∘ Nat.succ) =
        fun i => ((t.drop (size - ov)).drop (i * (size - ov))).take size := by
      funext i
      simp only [Function.comp]
      rw [List.drop_drop]
      congr 2
      rw [Nat.succ_mul]
      omega
    rw [hfun]

lemma restJoin_splitChars_aux (size ov : Nat) (h : ov < size) :
    ∀ (n : Nat) (t : List Char), t.length ≤ n →
      restJoin ov (splitChars size ov t) = t.drop ov := by
  intro n
  induction n with
  | zero =>
    intro t ht
    have h0 : t = [] := List.eq_nil_of_length_eq_zero (by omega)
    subst h0
    rw [splitChars_nil]
    simp [restJoin]
  | succ n ih =>
    intro t ht
    by_cases h0 : t = []
    · subst h0
      rw [splitChars_nil]
      simp [restJoin]
    · have hs : 0 < size - ov := by omega
      have hl : 0 < t.length := List.length_pos.mpr h0
      rw [splitChars_cons size ov h t h0]
      have hstep : restJoin ov (t.take size :: splitChars size ov (t.drop (size - ov))) =
          List.drop ov (t.take size) ++
            restJoin ov (splitChars size ov (t.drop (size - ov))) := by
        simp [restJoin]
      rw [hstep, ih (t.drop (size - ov)) (by rw [List.length_drop]; omega)]
      rw [List.drop_drop]
      have hsum : size - ov + ov = size := by omega
      rw [hsum, List.drop_take]
      have hdrop : t.drop size = List.drop (size - ov) (t.drop ov) := by
        rw [List.drop_drop]
        congr 1
        omega
      rw [hdrop, List.take_append_drop]

lemma dropOverlaps_splitChars (size ov : Nat) (h : ov < size) (t : List Char) :
    dropOverlaps ov (splitChars size ov t) = t := by
  by_cases h0 : t = []
  · subst h0
    rw [splitChars_nil]
    rfl
  · rw [splitChars_cons size ov h t h0]
    have hstep : dropOverlaps ov (t.take size :: splitChars size ov (t.drop (size - ov))) =
        t.take size ++ restJoin ov (splitChars size ov (t.drop (size - ov))) := rfl
    rw [hstep, restJoin_splitChars_aux size ov h (t.drop (size - ov)).length _ le_rfl]
    rw [List.drop_drop]
    have hsum : size - ov + ov = size := by omega
    rw [hsum, List.take_append_drop]

/-! ## VectorStore (`VectorDatabase`) -/

/-- Modelled from the spec: the vector store holds one `(chunkText,
vector)` entry per chunk, in chunk order (`entry count == chunk count`,
entry `i` corresponds to chunk `i`). -/
structure VectorDatabase where
  entries : List (String × Vec)
deriving DecidableEq

/-- Modelled from the spec: `VectorStore.build` embeds every chunk and
is all-or-nothing — if any embedding call fails the whole build fails
and no partial index is produced. -/
def abuildFromList (embed : String → Except Exc Vec)
    (chunks : List String) : Except Exc VectorDatabase :=
  (chunks.mapM fun c => (embed c).map fun v => (c, v)).map VectorDatabase.mk

/-- The embedding calls issued by a build, in program order, stopping at
the first failing call (monadic sequencing). -/
def embedCalls (embed : String → Except Exc Vec) : List String → List ProviderCall
  | [] => []
  | c :: cs =>
      .embed c :: (match embed c with
        | .ok _ => embedCalls embed cs
        | .error _ => [])

/-- A scored search candidate: original chunk index, chunk text, and its
similarity score against the query. -/
structure ScoredChunk where
  idx : Nat
  text : String
  score : ℚ
deriving DecidableEq

/-- The search ordering from the spec: descending by similarity score,
ties broken by original chunk order (lower index first). -/
def simOrder (a b : ScoredChunk) : Prop :=
  b.score < a.score ∨ (a.score = b.score ∧ a.idx ≤ b.idx)

instance : DecidableRel simOrder := fun a b =>
  inferInstanceAs (Decidable (b.score < a.score ∨ (a.score = b.score ∧ a.idx ≤ b.idx)))

instance : IsTotal ScoredChunk simOrder where
  total a b := by
    rcases lt_trichotomy a.score b.score with h | h | h
    · exact Or.inr (Or.inl h)
    · rcases Nat.le_total a.idx b.idx with hi | hi
      · exact Or.inl (Or.inr ⟨h, hi⟩)
      · exact Or.inr (Or.inr ⟨h.symm, hi⟩)
    · exact Or.inl (Or.inl h)

instance : IsTrans ScoredChunk simOrder where
  trans a b c hab hbc := by
    rcases hab with hab | ⟨hab, hab'⟩ <;> rcases hbc with hbc | ⟨hbc, hbc'⟩
    · exact Or.inl (hbc.trans hab)
    · exact Or.inl (hbc ▸ hab)
    · exact Or.inl (by rw [hab]; exact hbc)
    · exact Or.inr ⟨hab.trans hbc, hab'.trans hbc'⟩

/-- Score every stored entry against the query vector, keeping the
original chunk index. -/
def scoreEntries (sim : Vec → Vec → ℚ) (q : Vec)
    (entries : List (String × Vec)) : List ScoredChunk :=
  entries.enum.map fun p => ⟨p.1, p.2.1, sim q p.2.2⟩

/-- Modelled from the spec: `VectorStore.search` — score every stored
vector against the query, sort descending by score with ties broken by
original chunk order, truncate to `k`.  The similarity measure (cosine
similarity in the spec) is passed as a parameter; the ordering contract
holds for any measure. -/
def VectorDatabase.searchScored (db : VectorDatabase) (sim : Vec → Vec → ℚ)
    (q : Vec) (k : Nat) : List ScoredChunk :=
  (List.insertionSort simOrder (scoreEntries sim q db.entries)).take k

/-- Modelled from the spec: `search_by_text(..., return_as_text=True)`
returns just the chunk texts, in the search's relevance order. -/
def VectorDatabase.searchTexts (db : VectorDatabase) (sim : Vec → Vec → ℚ)
    (q : Vec) (k : Nat) : List String :=
  (db.searchScored sim q k).map ScoredChunk.text

/-! ## Documents and the registry state -/

/-- The per-document record stored in `pdf_documents[pdf_id]`
(app.py lines 131–136): filename, chunk list, vector database and chunk
count. -/
structure DocumentData where
  filename : String
  chunks : List String
  vector_db : VectorDatabase
  document_count : Nat
deriving DecidableEq

/-- The registry type of `pdf_documents`. -/
abbrev Registry := List (String × DocumentData)

/-- A sequence of `put` operations (one per upload) applied to the
registry in some interleaving order. -/
def applyPuts (ops : List (String × DocumentData)) (r : Registry) : Registry :=
  ops.foldl (fun acc p => dictInsert acc p.1 p.2) r

/-! ## JSON responses -/

/-- The JSON values the handlers return via `JSONResponse`. -/
inductive Json where
  | str (s : String)
  | nat (n : Nat)
  | arr (xs : List Json)
  | obj (fields : List (String × Json))

/-- The top-level keys of a JSON object. -/
def Json.keys : Json → List String
  | .obj fs => fs.map Prod.fst
  | _ => []

/-- Field lookup in a JSON object. -/
def Json.getField : Json → String → Option Json
  | .obj fs, k => regGet fs k
  | _, _ => none

/-- One element of the `"pdfs"` array built by `list_pdfs`
(app.py lines 214–219): the dict
`{"pdf_id": pdf_id, "filename": data["filename"], "chunks": data["document_count"]}`. -/
def pdfItemJson (p : String × DocumentData) : Json :=
  .obj [("pdf_id", .str p.1), ("filename", .str p.2.filename),
        ("chunks", .nat p.2.document_count)]

/-- `GET /api/pdfs` (`list_pdfs`, app.py lines 208–221): returns
`{"pdfs": [...]}` with one element per registry entry, in registry
(insertion) order. -/
def listPdfsModel (registry : Registry) : Json :=
  .obj [("pdfs", .arr (registry.map pdfItemJson))]

/-! ## `POST /api/upload-pdf-rag` (`upload_pdf_rag`, app.py lines 92–150) -/

/-- Python's `str.lower()` (ASCII semantics): lower-case every
character. -/
def pyLower (s : String) : String := ⟨s.data.map Char.toLower⟩

/-- Python's `str.endswith(suffix)`: the last `len(suffix)` characters
equal the suffix (false when the string is shorter than the suffix). -/
def pyEndsWith (s suf : String) : Bool :=
  s.data.drop (s.data.length - suf.data.length) == suf.data

/-- The success response of `upload_pdf_rag` (app.py lines 138–143). -/
def uploadResponseJson (pdf_id filename : String) (n : Nat) : Json :=
  .obj [("pdf_id", .str pdf_id), ("filename", .str filename),
        ("chunks", .nat n),
        ("message", .str "PDF processed and indexed successfully")]

/-- The `except Exception` block of `upload_pdf_rag` (app.py lines
149–150): any exception `e` escaping the body — including the
handler's own `HTTPException(400, ...)` raises, which are subclasses of
`Exception` — is re-raised as
`HTTPException(500, f"Error processing PDF: {str(e)}")`. -/
def wrapUploadErr (e : Exc) : Exc :=
  .http 500 ("Error processing PDF: " ++ excStr e)

/-- The observable outcome of one `upload_pdf_rag` request: the HTTP
result, the registry after the request, the provider calls made, and
whether the temporary file was created and still exists on return. -/
structure UploadOutcome where
  result : Except Exc Json
  registry : Registry
  calls : List ProviderCall
  tempCreated : Bool
  tempExists : Bool

/-- `upload_pdf_rag` (app.py lines 92–150).  External capabilities are
parameters: `extract` is `PDFLoader(...).load_documents()` on the
uploaded bytes, `embed` the embedding provider.  The temporary file is
written after the filename check; every path through the inner `try`
runs the `finally: os.unlink(temp_file_path)` before the outer `except`
or the return, so `tempExists` is false whenever `tempCreated` is true. -/
def uploadModel (registry : Registry) (filename pdf_id : String)
    (extract : Except Exc (List String))
    (embed : String → Except Exc Vec) : UploadOutcome :=
  if pyEndsWith (pyLower filename) ".pdf" = false then
    ⟨.error (wrapUploadErr (.http 400 "Only PDF files are allowed")),
      registry, [], false, false⟩
  else
    match extract with
    | .error e => ⟨.error (wrapUploadErr e), registry, [], true, false⟩
    | .ok documents =>
      if documents.isEmpty then
        ⟨.error (wrapUploadErr (.http 400 "No text content found in PDF")),
          registry, [], true, false⟩
      else
        let text_splitter : CharacterTextSplitter := ⟨1000, 200⟩
        let chunks := text_splitter.split_texts documents
        match abuildFromList embed chunks with
        | .error e =>
            ⟨.error (wrapUploadErr e), registry, embedCalls embed chunks,
              true, false⟩
        | .ok vector_db =>
            ⟨.ok (uploadResponseJson pdf_id filename chunks.length),
              dictInsert registry pdf_id
                ⟨filename, chunks, vector_db, chunks.length⟩,
              embedCalls embed chunks, true, false⟩

/-! ## `POST /api/chat-rag` (`chat_rag`, app.py lines 153–205) -/

/-- The fixed instruction text of the RAG system prompt (app.py lines
178–182), up to the `{context}` placeholder. -/
def ragInstruction : String :=
  "You are a helpful job interview AI assistant that helps people best prepare for their interviews. Use only the information from the context to answer questions. If the answer cannot be found in the context, say so. Always cite specific parts of the document when possible.\n\nDocument Context:\n"

/-- Modelled from the spec: `SystemRolePrompt`/`UserRolePrompt` and
their `create_message` live in `aimakerspace/openai_utils/prompts.py`,
not under the provided source tree.  Per the spec, `composePrompt`
produces a fixed instruction message carrying the supplied context,
followed by the literal question; placeholder substitution is modelled
as concatenation of the fixed template text (verbatim from app.py) with
the substituted value. -/
def composePrompt (context question : String) : List Message :=
  [⟨"system", ragInstruction ++ context⟩,
   ⟨"user", "Question: " ++ question⟩]

/-- The `except Exception` block of `chat_rag` (app.py lines 204–205):
any exception `e` escaping the body — including the handler's own
`HTTPException(404, "PDF not found")` — is re-raised as
`HTTPException(500, f"Error in RAG chat: {str(e)}")`. -/
def wrapChatErr (e : Exc) : Exc :=
  .http 500 ("Error in RAG chat: " ++ excStr e)

/-- The observable outcome of one `chat_rag` request: either the message
sequence handed to the streaming generation call, or the HTTP error; and
the provider calls made. -/
structure ChatOutcome where
  result : Except Exc (List Message)
  calls : List ProviderCall

/-- `chat_rag` (app.py lines 153–205).  The registry membership check
runs first; `search_by_text` embeds the query (first provider call);
the prompt is composed from the top-3 chunk texts joined with a
blank-line separator; generation is invoked on the composed messages. -/
def chatRagModel (registry : Registry) (pdf_id user_message : String)
    (embed : String → Except Exc Vec) (sim : Vec → Vec → ℚ) : ChatOutcome :=
  match regGet registry pdf_id with
  | none => ⟨.error (wrapChatErr (.http 404 "PDF not found")), []⟩
  | some pdf_data =>
    match embed user_message with
    | .error e => ⟨.error (wrapChatErr e), [.embed user_message]⟩
    | .ok qv =>
      let relevant_chunks := pdf_data.vector_db.searchTexts sim qv 3
      let context := String.intercalate "\n\n" relevant_chunks
      let messages := composePrompt context user_message
      ⟨.ok messages, [.embed user_message, .generate messages]⟩

/-! ## Registry lemmas -/

lemma regGet_dictInsert_self {α : Type} (r : List (String × α)) (k : String) (v : α) :
    regGet (dictInsert r k v) k = some v := by
  induction r with
  | nil => simp [dictInsert, regGet]
  | cons p rest ih =>
    obtain ⟨a, b⟩ := p
    by_cases hk : k = a
    · simp [dictInsert, regGet, hk]
    · simp [dictInsert, regGet, hk, ih]

lemma regGet_dictInsert_ne {α : Type} (r : List (String × α)) (k k' : String) (v : α)
    (h : k' ≠ k) : regGet (dictInsert r k v) k' = regGet r k' := by
  induction r with
  | nil => simp [dictInsert, regGet, h]
  | cons p rest ih =>
    obtain ⟨a, b⟩ := p
    by_cases hk : k = a
    · subst hk
      simp [dictInsert, regGet, h]
    · by_cases hk2 : k' = a
      · simp [dictInsert, regGet, hk, hk2]
      · simp [dictInsert, regGet, hk, hk2, ih]

lemma applyPuts_regGet_of_not_mem (ops : List (String × DocumentData)) (r : Registry)
    (id : String) (h : ∀ p ∈ ops, p.1 ≠ id) :
    regGet (applyPuts ops r) id = regGet r id := by
  induction ops generalizing r with
  | nil => rfl
  | cons p rest ih =>
    obtain ⟨k, v⟩ := p
    have hk : k ≠ id := h (k, v) (List.mem_cons_self _ _)
    have hstep : applyPuts ((k, v) :: rest) r = applyPuts rest (dictInsert r k v) := rfl
    rw [hstep, ih (dictInsert r k v) (fun q hq => h q (List.mem_cons_of_mem _ hq))]
    exact regGet_dictInsert_ne r k id v (Ne.symm hk)

lemma regGet_applyPuts_of_mem (ops : List (String × DocumentData)) (r : Registry)
    (id : String) (d : DocumentData)
    (hnd : (ops.map Prod.fst).Nodup) (hmem : (id, d) ∈ ops) :
    regGet (applyPuts ops r) id = some d := by
  induction ops generalizing r with
  | nil => cases hmem
  | cons p rest ih =>
    obtain ⟨k, v⟩ := p
    have hstep : applyPuts ((k, v) :: rest) r = applyPuts rest (dictInsert r k v) := rfl
    rw [List.map_cons, List.nodup_cons] at hnd
    rcases List.mem_cons.mp hmem with heq | hmem'
    · obtain ⟨hid, hd⟩ := Prod.mk.inj heq
      subst hid
      subst hd
      have hrest : ∀ q ∈ rest, q.1 ≠ id := by
        intro q hq habs
        exact hnd.1 (List.mem_map.mpr ⟨q, hq, habs⟩)
      rw [hstep, applyPuts_regGet_of_not_mem rest _ id hrest]
      exact regGet_dictInsert_self r id d
    · rw [hstep]
      exact ih (dictInsert r k v) hnd.2 hmem'

/-! ## Concrete capability instances used by closed statements -/

/-- An embedding capability that always succeeds with the vector `[1]`. -/
def embedOkOne : String → Except Exc Vec := fun _ => .ok [1]

/-- An embedding capability that always fails with a quota error. -/
def embedFail : String → Except Exc Vec := fun _ => .error (.err "quota")

/-- A degenerate similarity measure assigning every pair score `0`. -/
def simZero : Vec → Vec → ℚ := fun _ _ => 0

/-- A sample registered document. -/
def docA : DocumentData := ⟨"a.pdf", ["alpha"], ⟨[("alpha", [1])]⟩, 1⟩

/-- A second sample registered document. -/
def docB : DocumentData := ⟨"b.pdf", ["beta"], ⟨[("beta", [2])]⟩, 1⟩

/-! ## Claim theorems -/

/-- C1: a `chat_rag` request whose `pdf_id` is not registered makes no
provider call before failing, but the failure is surfaced as HTTP 500
("Error in RAG chat: PDF not found"), not as the claimed 404: the
handler's own `HTTPException(404, "PDF not found")` is caught by its
`except Exception` block and re-raised with status 500.  Evaluated here
at the failing input (empty registry, unknown id). -/
theorem chat_rag_unknown_id_surfaced_as_500 :
    (chatRagModel [] "missing-id" "hello" embedOkOne simZero).result
        = .error (.http 500 "Error in RAG chat: PDF not found") ∧
    (chatRagModel [] "missing-id" "hello" embedOkOne simZero).calls = [] :=
  ⟨rfl, rfl⟩

/-- C2: upload validation failures (non-`.pdf` filename; no extracted
text) make no embedding provider call, but both are surfaced as HTTP 500
instead of the claimed 400: the handler's own `HTTPException(400, ...)`
raises are caught by its `except Exception` block and re-raised with
status 500.  Evaluated here at both failing inputs. -/
theorem upload_validation_surfaced_as_500 :
    (uploadModel [] "notes.txt" "id-3" (.ok ["some text"]) embedOkOne).result
        = .error (.http 500 "Error processing PDF: Only PDF files are allowed") ∧
    (uploadModel [] "notes.txt" "id-3" (.ok ["some text"]) embedOkOne).calls = [] ∧
    (uploadModel [] "empty.pdf" "id-4" (.ok []) embedOkOne).result
        = .error (.http 500 "Error processing PDF: No text content found in PDF") ∧
    (uploadModel [] "empty.pdf" "id-4" (.ok []) embedOkOne).calls = [] :=
  ⟨rfl, rfl, rfl, rfl⟩

/-- C3: index construction is atomic with respect to the registry — if
the vector-database build fails (any chunk's embedding fails), the
upload fails and the registry is unchanged; in particular no entry for
the generated `pdf_id` is inserted. -/
theorem upload_atomic_on_embed_failure (registry : Registry)
    (filename pdf_id : String) (documents : List String)
    (embed : String → Except Exc Vec) (e : Exc)
    (hfail : abuildFromList embed
        ((⟨1000, 200⟩ : CharacterTextSplitter).split_texts documents) = .error e) :
    exceptIsErr (uploadModel registry filename pdf_id (.ok documents) embed).result
        = true ∧
    (uploadModel registry filename pdf_id (.ok documents) embed).registry
        = registry ∧
    regGet (uploadModel registry filename pdf_id (.ok documents) embed).registry
        pdf_id = regGet registry pdf_id := by
  unfold uploadModel
  by_cases hf : pyEndsWith (pyLower filename) ".pdf" = false
  · simp [hf, exceptIsErr]
  · rw [if_neg hf]
    by_cases hd : documents.isEmpty
    · simp [hd, exceptIsErr]
    · simp [hd, hfail, exceptIsErr]

/-- Witness for C3 at a concrete input: a build whose single embedding
call fails leaves the empty registry empty. -/
theorem upload_atomic_on_embed_failure_witness :
    abuildFromList embedFail
        ((⟨1000, 200⟩ : CharacterTextSplitter).split_texts ["hello"])
      = .error (.err "quota") ∧
    (uploadModel [] "doc.pdf" "id-1" (.ok ["hello"]) embedFail).registry = [] :=
  ⟨rfl,
    (upload_atomic_on_embed_failure [] "doc.pdf" "id-1" ["hello"] embedFail
      (.err "quota") rfl).2.1⟩

/-- C4 counterexample: `list_pdfs` on the empty registry returns
`{"pdfs": []}` — its only top-level key is `"pdfs"`, not the claimed
`"documents"`. -/
theorem list_pdfs_key_counterexample :
    listPdfsModel [] = Json.obj [("pdfs", Json.arr [])] ∧
    Json.keys (listPdfsModel []) = ["pdfs"] ∧
    "documents" ∉ Json.keys (listPdfsModel []) :=
  ⟨rfl, rfl, by decide⟩

/-- C4 (amended): `GET /api/pdfs` returns an object whose single key is
`"pdfs"`, containing one entry per registered document with fields
`pdf_id`, `filename` and `chunks`; before any upload it returns
`{"pdfs": []}`. -/
theorem list_pdfs_shape (registry : Registry) :
    Json.keys (listPdfsModel registry) = ["pdfs"] ∧
    Json.getField (listPdfsModel registry) "pdfs"
        = some (.arr (registry.map pdfItemJson)) ∧
    (registry.map pdfItemJson).length = registry.length ∧
    (∀ p : String × DocumentData,
        Json.keys (pdfItemJson p) = ["pdf_id", "filename", "chunks"]) ∧
    listPdfsModel [] = Json.obj [("pdfs", Json.arr [])] := by
  refine ⟨rfl, ?_, List.length_map _ _, fun p => rfl, rfl⟩
  simp [listPdfsModel, Json.getField, regGet]

/-- C5: for every text and every configuration with
`chunkSize > overlap ≥ 0`, concatenating the chunker's output with the
overlapping prefixes removed reconstructs the text exactly; the
string-level splitter is the character-level one; and splitting
`"AAAABBBBCCCC"` with `chunkSize = 4, overlap = 0` yields exactly
`["AAAA", "BBBB", "CCCC"]`, a chunk count of 3. -/
theorem chunker_reconstruction :
    (∀ (t : List Char) (size ov : Nat), ov < size →
        dropOverlaps ov (splitChars size ov t) = t) ∧
    (∀ (cfg : CharacterTextSplitter) (s : String),
        (cfg.split s).map String.data
          = splitChars cfg.chunk_size cfg.chunk_overlap s.data) ∧
    CharacterTextSplitter.split ⟨4, 0⟩ "AAAABBBBCCCC" = ["AAAA", "BBBB", "CCCC"] ∧
    (CharacterTextSplitter.split ⟨4, 0⟩ "AAAABBBBCCCC").length = 3 := by
  refine ⟨fun t size ov h => dropOverlaps_splitChars size ov h t, ?_, by decide, by decide⟩
  intro cfg s
  have hcomp : String.data ∘ String.mk = id := funext fun l => rfl
  rw [CharacterTextSplitter.split, List.map_map, hcomp, List.map_id]

/-- Witness for C5 at a concrete input: reconstruction at
`chunkSize = 4, overlap = 0` on the scenario text. -/
theorem chunker_reconstruction_witness :
    (0 : Nat) < 4 ∧
    dropOverlaps 0 (splitChars 4 0 "AAAABBBBCCCC".data) = "AAAABBBBCCCC".data :=
  ⟨by decide, chunker_reconstruction.1 "AAAABBBBCCCC".data 4 0 (by decide)⟩

/-- C6: search results are pairwise ordered by descending similarity
score with ties broken by lower original chunk index; the result length
is at most `k` and at most the number of stored entries; and an empty
store yields an empty result (not an error), for any similarity
measure. -/
theorem search_sorted_and_bounded (sim : Vec → Vec → ℚ) (q : Vec) (k : Nat)
    (entries : List (String × Vec)) :
    ((VectorDatabase.mk entries).searchScored sim q k).Pairwise
        (fun a b => b.score < a.score ∨ (a.score = b.score ∧ a.idx < b.idx)) ∧
    ((VectorDatabase.mk entries).searchScored sim q k).length ≤ k ∧
    ((VectorDatabase.mk entries).searchScored sim q k).length ≤ entries.length ∧
    (VectorDatabase.mk []).searchScored sim q k = [] := by
  have hsorted : (List.insertionSort simOrder (scoreEntries sim q entries)).Pairwise
      simOrder := List.sorted_insertionSort simOrder (scoreEntries sim q entries)
  have hperm := List.perm_insertionSort simOrder (scoreEntries sim q entries)
  have hmapidx : (scoreEntries sim q entries).map ScoredChunk.idx
      = List.range entries.length := by
    rw [scoreEntries, List.map_map]
    exact List.enum_map_fst entries
  have hidx : (scoreEntries sim q entries).Pairwise (fun a b => a.idx ≠ b.idx) := by
    have h2 : ((scoreEntries sim q entries).map ScoredChunk.idx).Nodup :=
      hmapidx ▸ List.nodup_range _
    exact List.pairwise_map.mp h2
  have hidx' : (List.insertionSort simOrder (scoreEntries sim q entries)).Pairwise
      (fun a b => a.idx ≠ b.idx) :=
    ((hperm.pairwise_iff fun h => h.symm).mpr) hidx
  have hstrict : (List.insertionSort simOrder (scoreEntries sim q entries)).Pairwise
      (fun a b => b.score < a.score ∨ (a.score = b.score ∧ a.idx < b.idx)) := by
    refine (hsorted.and hidx').imp ?_
    rintro a b ⟨hord | ⟨he, hle⟩, hne⟩
    · exact Or.inl hord
    · exact Or.inr ⟨he, lt_of_le_of_ne hle hne⟩
  have hlen : (List.insertionSort simOrder (scoreEntries sim q entries)).length
      = entries.length := by
    rw [hperm.length_eq, scoreEntries, List.length_map, List.enum_length]
  refine ⟨?_, ?_, ?_, ?_⟩
  · exact List.Pairwise.sublist (List.take_sublist _ _) hstrict
  · rw [VectorDatabase.searchScored, List.length_take]
    exact min_le_left _ _
  · rw [VectorDatabase.searchScored, List.length_take]
    exact le_trans (min_le_right _ _) (le_of_eq hlen)
  · simp [VectorDatabase.searchScored, scoreEntries]

/-- C7: on a registered document with a successful query embedding, the
context handed to generation is exactly the top-3 retrieved chunk texts
joined with a blank-line separator in relevance order, and the message
sequence is exactly the fixed system instruction carrying that context
followed by a user message containing the caller's literal question. -/
theorem chat_rag_prompt_shape (registry : Registry)
    (pdf_id user_message : String) (pdf_data : DocumentData)
    (embed : String → Except Exc Vec) (qv : Vec) (sim : Vec → Vec → ℚ)
    (hdoc : regGet registry pdf_id = some pdf_data)
    (hq : embed user_message = .ok qv) :
    (chatRagModel registry pdf_id user_message embed sim).result
        = .ok (composePrompt
            (String.intercalate "\n\n" (pdf_data.vector_db.searchTexts sim qv 3))
            user_message) ∧
    composePrompt
        (String.intercalate "\n\n" (pdf_data.vector_db.searchTexts sim qv 3))
        user_message
      = [⟨"system", ragInstruction
            ++ String.intercalate "\n\n" (pdf_data.vector_db.searchTexts sim qv 3)⟩,
         ⟨"user", "Question: " ++ user_message⟩] ∧
    (∃ pre post : List Char,
        pre ++ user_message.data ++ post = ("Question: " ++ user_message).data) := by
  refine ⟨?_, rfl, ⟨"Question: ".data, [], ?_⟩⟩
  · simp [chatRagModel, hdoc, hq]
  · rw [String.data_append, List.append_nil]

/-- Witness for C7 at a concrete input: a one-document registry and an
embedding that succeeds. -/
theorem chat_rag_prompt_shape_witness :
    regGet [("doc-1", docA)] "doc-1" = some docA ∧
    (chatRagModel [("doc-1", docA)] "doc-1" "hi" embedOkOne simZero).result
      = .ok (composePrompt
          (String.intercalate "\n\n" (docA.vector_db.searchTexts simZero [1] 3))
          "hi") :=
  ⟨rfl,
    (chat_rag_prompt_shape [("doc-1", docA)] "doc-1" "hi" docA embedOkOne [1]
      simZero rfl rfl).1⟩

/-- C8: applying N put operations with distinct ids to the registry in
any interleaving (permutation) order, a get for each id returns exactly
the document inserted under that id — no lost writes and no
cross-contamination.  Each put is a single atomic insertion (documents
are constructed entirely before `put`). -/
theorem registry_concurrent_puts (ops interleaved : List (String × DocumentData))
    (hperm : interleaved.Perm ops) (hnd : (ops.map Prod.fst).Nodup)
    (id : String) (d : DocumentData) (hmem : (id, d) ∈ ops) :
    regGet (applyPuts interleaved []) id = some d := by
  have hnd' : (interleaved.map Prod.fst).Nodup :=
    ((hperm.map Prod.fst).nodup_iff).mpr hnd
  have hmem' : (id, d) ∈ interleaved := hperm.mem_iff.mpr hmem
  exact regGet_applyPuts_of_mem interleaved [] id d hnd' hmem'

/-- Witness for C8 at a concrete input: two puts executed in the
opposite of their issue order still serve both gets exactly. -/
theorem registry_concurrent_puts_witness :
    regGet (applyPuts [("b", docB), ("a", docA)] []) "a" = some docA ∧
    regGet (applyPuts [("b", docB), ("a", docA)] []) "b" = some docB :=
  ⟨registry_concurrent_puts [("a", docA), ("b", docB)] [("b", docB), ("a", docA)]
      (by decide) (by decide) "a" docA (by decide),
    registry_concurrent_puts [("a", docA), ("b", docB)] [("b", docB), ("a", docA)]
      (by decide) (by decide) "b" docB (by decide)⟩

/-- C10: every upload request that passes the filename check (and hence
reaches the temporary-file write) creates the temporary file and deletes
it before returning, whether PDF processing succeeds or fails: every
path through the inner `try` runs `finally: os.unlink(temp_file_path)`. -/
theorem upload_temp_file_cleanup (registry : Registry) (filename pdf_id : String)
    (extract : Except Exc (List String)) (embed : String → Except Exc Vec)
    (hreach : pyEndsWith (pyLower filename) ".pdf" = true) :
    (uploadModel registry filename pdf_id extract embed).tempCreated = true ∧
    (uploadModel registry filename pdf_id extract embed).tempExists = false := by
  unfold uploadModel
  rw [if_neg (by simp [hreach])]
  rcases extract with e | documents
  · exact ⟨rfl, rfl⟩
  · by_cases hd : documents.isEmpty
    · simp [hd]
    · cases hb : abuildFromList embed
          ((⟨1000, 200⟩ : CharacterTextSplitter).split_texts documents) <;>
        simp [hd, hb]

/-- Witness for C10 at a concrete input: a `.pdf` upload whose build
fails still deletes its temporary file. -/
theorem upload_temp_file_cleanup_witness :
    pyEndsWith (pyLower "a.pdf") ".pdf" = true ∧
    (uploadModel [] "a.pdf" "id-2" (.ok ["hello"]) embedFail).tempExists = false :=
  ⟨by decide,
    (upload_temp_file_cleanup [] "a.pdf" "id-2" (.ok ["hello"]) embedFail
      (by decide)).2⟩
